import Mathlib

/-!
Shallow embedding of the go-speech-recognition library
(`go-speech-recognition.h`, Go source segment: globals, `InitializeStream`,
`SendAudio`, `ReceiveTranscript`, `GetLog`, `CloseStream`, `IsInitialized`).

Strings coming over the stream (transcript alternatives) are modelled as
`List Char`; the error-log slot keeps Lean `String`.  Samples are C `short`
values (16-bit signed), modelled as `Int` and encoded through their
two's-complement 16-bit pattern exactly as Go's
`binary.Write(_, binary.LittleEndian, list)` does.
-/

namespace GoSpeech

/-- Two's-complement 16-bit pattern of a C `short`, as a natural number. -/
def toU16 (s : Int) : Nat := (s % 65536).toNat

/-- Little-endian byte pair written by `binary.Write` for one 16-bit sample. -/
def encSample (s : Int) : List Nat := [toU16 s % 256, toU16 s / 256]

/-- The byte buffer `temporaryByteBuffer` after `binary.Write` of the whole
sample list: consecutive little-endian byte pairs. -/
def encodeLE (samples : List Int) : List Nat := (samples.map encSample).flatten

/-- The chunking performed by the `[SENDING]` loop: `temporaryByteBuffer.Read`
into the 1024-byte `pipeline` yields successive slices of at most 1024 bytes
until the buffer is exhausted (`io.EOF`). -/
def chunkBytes (l : List Nat) : List (List Nat) :=
  if _h : l = [] then []
  else (l.take 1024) :: chunkBytes (l.drop 1024)
termination_by l.length
decreasing_by
  simp only [List.length_drop]
  have : 0 < l.length := List.length_pos.mpr _h
  omega

theorem chunkBytes_nil : chunkBytes [] = [] := by
  rw [chunkBytes]; rfl

theorem chunkBytes_cons (l : List Nat) (h : l ≠ []) :
    chunkBytes l = (l.take 1024) :: chunkBytes (l.drop 1024) := by
  rw [chunkBytes]; simp [h]

/-- Concatenating the chunks in order reproduces the byte buffer. -/
theorem chunkBytes_join (l : List Nat) : (chunkBytes l).flatten = l := by
  induction l using chunkBytes.induct with
  | case1 => simp [chunkBytes_nil]
  | case2 l h ih =>
      rw [chunkBytes_cons l h]
      simp [List.flatten, ih, List.take_append_drop]

/-- The number of chunks is `ceil (length / 1024)`. -/
theorem chunkBytes_count (l : List Nat) :
    (chunkBytes l).length = (l.length + 1023) / 1024 := by
  induction l using chunkBytes.induct with
  | case1 => simp [chunkBytes_nil]
  | case2 l h ih =>
      rw [chunkBytes_cons l h]
      simp only [List.length_cons, ih, List.length_drop]
      have : 0 < l.length := List.length_pos.mpr h
      omega

/-- Every chunk has at most 1024 bytes and none is empty. -/
theorem chunkBytes_bounds (l : List Nat) :
    ∀ c ∈ chunkBytes l, c.length ≤ 1024 ∧ c ≠ [] := by
  induction l using chunkBytes.induct with
  | case1 => simp [chunkBytes_nil]
  | case2 l h ih =>
      rw [chunkBytes_cons l h]
      intro c hc
      rcases List.mem_cons.mp hc with hc | hc
      · subst hc
        constructor
        · simp [List.length_take]
        · simp only [ne_eq, List.take_eq_nil_iff]
          push_neg
          refine ⟨by omega, h⟩
      · exact ih c hc

theorem encodeLE_length (samples : List Int) :
    (encodeLE samples).length = 2 * samples.length := by
  induction samples with
  | nil => simp [encodeLE]
  | cons s rest ih =>
      simp only [encodeLE, List.map_cons, List.flatten_cons, List.length_append,
        List.length_cons] at ih ⊢
      simp only [encSample, List.length_cons, List.length_nil]
      omega

/-!
## Session state

The Go module keeps its session in globals: `ctx`/`cancel`, `client`,
`stream`, `logStatus`, `initDone` (source name: the global boolean
`initialized`), plus the two mutexes.  `streamSet` records whether the
global stream handle is non-nil, `cancelSet` whether the global cancel
function is non-nil (it is the zero value nil until the first
`InitializeStream` call assigns `ctx, cancel = context.WithCancel(...)`).
-/

structure Session where
  initDone : Bool
  streamSet : Bool
  cancelSet : Bool
  logStatus : String
  deriving DecidableEq, Repr

/-- The process-start state of the globals. -/
def freshSession : Session := ⟨false, false, false, ""⟩

/-- A session right after a successful `InitializeStream`. -/
def activeSession : Session := ⟨true, true, true, ""⟩

/-- Outcome of one `stream.Send` of an audio chunk, decided by the
environment (the remote service / the canceled context). -/
inductive SendOutcome
  | ok
  | canceled
  | failed (m : String)
  deriving DecidableEq

/-- Observable result of one `SendAudio` call: the C return value, the audio
messages actually written onto the stream (in order), and the final value of
the `logStatus` global. -/
structure SendResult where
  ret : Nat
  sent : List (List Nat)
  log : String
  deriving DecidableEq, Repr

/-- The `[SENDING]` loop of `SendAudio`, one iteration per chunk.  Per
iteration: `sendMutex.Lock()`; if the global boolean is false, unlock, log
`Stream is not initialized` and return `C.int(1)`; otherwise `stream.Send`
the chunk, unlock, and dispatch on the error (`context.Canceled` returns
`C.int(1)`, any other error logs and returns `C.int(0)`).  Reaching `io.EOF`
returns `C.int(1)`. -/
def sendChunks (initDone : Bool) (log : String) (oracle : Nat → SendOutcome) :
    List (List Nat) → SendResult
  | [] => ⟨1, [], log⟩
  | c :: cs =>
    if initDone = false then ⟨1, [], "Stream is not initialized"⟩
    else
      match oracle 0 with
      | .canceled => ⟨1, [], log⟩
      | .failed m => ⟨0, [], "Could not send audio:" ++ m⟩
      | .ok =>
        let r := sendChunks initDone log (fun n => oracle (n + 1)) cs
        ⟨r.ret, c :: r.sent, r.log⟩

/-- `SendAudio(recording, recordingLength)`: encode the samples little-endian
into the temporary byte buffer, then stream it in chunks of at most 1024
bytes.  `oracle i` is the environment's outcome for the i-th chunk write. -/
def sendAudio (s : Session) (samples : List Int) (oracle : Nat → SendOutcome) :
    SendResult :=
  sendChunks s.initDone s.logStatus oracle (chunkBytes (encodeLE samples))

/-- `SendAudio` only mutates the `logStatus` global; the session after the
call. -/
def sendAudioSession (s : Session) (samples : List Int)
    (oracle : Nat → SendOutcome) : Session :=
  { s with logStatus := (sendAudio s samples oracle).log }

/-!
## ReceiveTranscript
-/

/-- Outcome of the single `stream.Recv()` performed by `ReceiveTranscript`:
a canceled context, a receive error, a response carrying a remote error, or a
response carrying results, each result a list of alternative transcripts. -/
inductive RecvOutcome
  | canceled
  | recvErr (m : String)
  | respErr (m : String)
  | resp (results : List (List (List Char)))

/-- Observable result of one `ReceiveTranscript` call: the C return value,
the value stored through the `output` parameter (`none` when the code never
assigns `*output`), and the final `logStatus`. -/
structure RecvResult where
  ret : Nat
  out : Option (List Char)
  log : String
  deriving DecidableEq, Repr

/-- The per-alternative trim: `if len(t) > 0 && t[0] == ' ' then t[1:]`. -/
def trimAlt : List Char → List Char
  | [] => []
  | c :: rest => if c = ' ' then rest else c :: rest

/-- `helperString` after the nested loops over `resp.Results` and their
`Alternatives`: each (possibly trimmed) alternative followed by `';'`,
concatenated in received order. -/
def helperOf (results : List (List (List Char))) : List Char :=
  ((results.flatten).map (fun a => trimAlt a ++ [';'])).flatten

/-- The final `Fill output and remove semicolons in front/end` block.  Go
panics (modelled as `none`) when it indexes `helperString[0]` of an empty
string, or slices `helperString[1:0]` of the one-character string `";"`. -/
def finalize (h : List Char) : Option (List Char) :=
  if h.length = 0 then none
  else if h.head? = some ';' ∧ h.getLast? = some ';' then
    (if h.length ≤ 1 then none else some ((h.drop 1).dropLast))
  else if h.head? ≠ some ';' ∧ h.getLast? = some ';' then some h.dropLast
  else if h.head? = some ';' ∧ h.getLast? ≠ some ';' then some (h.drop 1)
  else some h

/-- `ReceiveTranscript(output)`: under the receive lock, fail with return 0
when the session is not initialized; otherwise one `stream.Recv()` whose
outcome `o` is dispatched exactly as in the source.  `none` models a runtime
panic of the Go code. -/
def receiveTranscript (s : Session) (o : RecvOutcome) : Option RecvResult :=
  if s.initDone = false then some ⟨0, none, "Stream is not initialized"⟩
  else
    match o with
    | .canceled => some ⟨1, none, s.logStatus⟩
    | .recvErr m => some ⟨0, none, "Cannot stream results: " ++ m⟩
    | .respErr m => some ⟨0, none, "Could not recognize: " ++ m⟩
    | .resp results =>
      match finalize (helperOf results) with
      | none => none
      | some t => some ⟨1, some t, s.logStatus⟩

/-- `ReceiveTranscript` only mutates `logStatus` (when it returns at all). -/
def receiveSession (s : Session) (o : RecvOutcome) : Option Session :=
  match receiveTranscript s o with
  | none => none
  | some r => some { s with logStatus := r.log }

/-!
## Spec-worded normalization (for claim C3)

Modelled from the spec: the normalization algorithm as §4.3/§8.4 word it —
trim one leading space from each alternative, concatenate the alternatives
in received order separated by a single semicolon, then strip at most one
leading and at most one trailing semicolon from the result.
-/

/-- Spec wording: concatenation separated by a single semicolon. -/
def joinSemi : List (List Char) → List Char
  | [] => []
  | [t] => t
  | t :: ts => t ++ ';' :: joinSemi ts

/-- Spec wording: strip at most one leading semicolon. -/
def stripLeadSemi : List Char → List Char
  | [] => []
  | c :: r => if c = ';' then r else c :: r

/-- Spec wording: strip at most one trailing semicolon. -/
def stripTrailSemi (l : List Char) : List Char :=
  if l.getLast? = some ';' then l.dropLast else l

/-- Modelled from the spec: the whole normalization of §4.3 step 4, used to
compare the spec's words against the code's `helperOf`/`finalize`. -/
def specNormalize (alts : List (List Char)) : List Char :=
  stripTrailSemi (stripLeadSemi (joinSemi (alts.map trimAlt)))

/-!
## InitializeStream, CloseStream, IsInitialized, GetLog
-/

/-- Environment outcome of one `InitializeStream` call: `speech.NewClient`
fails, `client.StreamingRecognize` fails (returning a nil stream), the
initial configuration `stream.Send` fails, or everything succeeds. -/
inductive InitOutcome
  | clientFail (m : String)
  | streamFail (m : String)
  | configFail (m : String)
  | ok
  deriving DecidableEq

/-- The configuration message built by `InitializeStream`. -/
structure ConfigMsg where
  encoding : String
  sampleRateHertz : Int
  languageCode : String
  model : String
  maxAlternatives : Int
  interimResults : Bool
  deriving DecidableEq, Repr

/-- Observable result of one `InitializeStream` call: C return value, the
configuration messages sent on the freshly opened stream (in order), and the
updated session. -/
structure InitResult where
  ret : Nat
  sentConfig : List ConfigMsg
  session : Session
  deriving DecidableEq, Repr

/-- `InitializeStream(cTranscriptLanguage, cSampleRate, cTranscriptionModel,
cMaxAlternatives, cInterimResults)`.  First `ctx, cancel =
context.WithCancel(...)` (so the cancel function is non-nil from here on),
then client construction, stream opening (`stream, err = ...` assigns the
global stream even on failure, where it receives nil), the single
configuration `stream.Send` (carrying `LINEAR16`, the sample rate, language,
model, max alternatives, and `interimResults = (cInterimResults == 1)`), and
finally `initialized = true; return 1`.  Failures store the error text in
`logStatus` and return 0 without touching the `initialized` global. -/
def initStream (s : Session) (lang : String) (rate : Int) (model : String)
    (maxAlt : Int) (interim : Int) (o : InitOutcome) : InitResult :=
  let s1 : Session := { s with cancelSet := true }
  match o with
  | .clientFail m => ⟨0, [], { s1 with logStatus := m }⟩
  | .streamFail m => ⟨0, [], { s1 with streamSet := false, logStatus := m }⟩
  | .configFail m => ⟨0, [], { s1 with streamSet := true, logStatus := m }⟩
  | .ok =>
    ⟨1, [⟨"LINEAR16", rate, lang, model, maxAlt, interim == 1⟩],
      { s1 with streamSet := true, initDone := true }⟩

/-- `CloseStream()`: calls `cancel()` first — a nil cancel function (no
`InitializeStream` ever ran) is a Go nil-function-call panic, modelled as
`none`.  Otherwise, under both mutexes: `stream = nil; client = nil;
ctx = nil; initialized = false` (the `cancel` global is left assigned). -/
def closeStream (s : Session) : Option Session :=
  if s.cancelSet = false then none
  else some { s with initDone := false, streamSet := false }

/-- `IsInitialized()`: 1 when the `initialized` global is true, else 0. -/
def isInit (s : Session) : Nat :=
  if s.initDone = true then 1 else 0

/-- `GetLog()`: returns the `logStatus` global. -/
def getLog (s : Session) : String := s.logStatus

/-!
## Reachable session states

One step per exported call, with the environment free to pick parameters and
outcomes.  A step exists only when the call returns (a Go panic halts the
process, so a panicking call has no successor state). -/

inductive Reachable : Session → Prop
  | start : Reachable freshSession
  | stepInit (s : Session) (lang : String) (rate : Int) (model : String)
      (maxAlt : Int) (interim : Int) (o : InitOutcome) :
      Reachable s → Reachable (initStream s lang rate model maxAlt interim o).session
  | stepSend (s : Session) (samples : List Int) (oracle : Nat → SendOutcome) :
      Reachable s → Reachable (sendAudioSession s samples oracle)
  | stepRecv (s s' : Session) (o : RecvOutcome) :
      Reachable s → receiveSession s o = some s' → Reachable s'
  | stepClose (s s' : Session) :
      Reachable s → closeStream s = some s' → Reachable s'

/-- Reachability restricted as the amended claim C6 demands: every failed
`InitializeStream` fails during client construction (before the stream
global is ever assigned). -/
inductive ReachableCF : Session → Prop
  | start : ReachableCF freshSession
  | stepInit (s : Session) (lang : String) (rate : Int) (model : String)
      (maxAlt : Int) (interim : Int) (o : InitOutcome) :
      ReachableCF s →
      (o = .ok ∨ ∃ m, o = .clientFail m) →
      ReachableCF (initStream s lang rate model maxAlt interim o).session
  | stepSend (s : Session) (samples : List Int) (oracle : Nat → SendOutcome) :
      ReachableCF s → ReachableCF (sendAudioSession s samples oracle)
  | stepRecv (s s' : Session) (o : RecvOutcome) :
      ReachableCF s → receiveSession s o = some s' → ReachableCF s'
  | stepClose (s s' : Session) :
      ReachableCF s → closeStream s = some s' → ReachableCF s'

/-!
## Concurrency skeleton (claim C9)

Interleaving model of the lock discipline: two sender threads each executing
the per-chunk protocol `sendMutex.Lock(); stream.Send(chunk);
sendMutex.Unlock()` and one receiver thread executing
`receiveMutex.Lock(); stream.Recv(); receiveMutex.Unlock()`.  A thread is
`busy` exactly while it holds its lock and performs its stream call, so two
chunk writes overlap in time iff both sender threads are simultaneously
`busy`. -/

inductive TPc
  | idle
  | busy
  deriving DecidableEq, Repr

/-- Lock state plus the program counters of two sender threads and one
receiver thread. -/
structure CState where
  sLock : Bool
  rLock : Bool
  send1 : TPc
  send2 : TPc
  recv : TPc
  deriving DecidableEq, Repr

def cInitState : CState := ⟨false, false, .idle, .idle, .idle⟩

/-- One interleaving step: a lock acquisition succeeds only when the lock is
free (mutex semantics), and a release returns the thread to `idle`. -/
inductive CStep : CState → CState → Prop
  | acq1 (s : CState) : s.sLock = false → s.send1 = .idle →
      CStep s { s with sLock := true, send1 := .busy }
  | rel1 (s : CState) : s.send1 = .busy →
      CStep s { s with sLock := false, send1 := .idle }
  | acq2 (s : CState) : s.sLock = false → s.send2 = .idle →
      CStep s { s with sLock := true, send2 := .busy }
  | rel2 (s : CState) : s.send2 = .busy →
      CStep s { s with sLock := false, send2 := .idle }
  | acqR (s : CState) : s.rLock = false → s.recv = .idle →
      CStep s { s with rLock := true, recv := .busy }
  | relR (s : CState) : s.recv = .busy →
      CStep s { s with rLock := false, recv := .idle }

inductive CReach : CState → Prop
  | start : CReach cInitState
  | step (s s' : CState) : CReach s → CStep s s' → CReach s'

/-- Lock-discipline invariant: a busy sender holds the send lock, and the two
senders are never busy together. -/
def lockInv (s : CState) : Prop :=
  (s.send1 = .busy → s.sLock = true) ∧
  (s.send2 = .busy → s.sLock = true) ∧
  ¬(s.send1 = .busy ∧ s.send2 = .busy)

theorem lockInv_reach (s : CState) (h : CReach s) : lockInv s := by
  induction h with
  | start => simp [lockInv, cInitState]
  | step s s' _hr hstep ih =>
      obtain ⟨i1, i2, i3⟩ := ih
      cases hstep with
      | acq1 hl hp =>
          refine ⟨fun _ => rfl, fun h2 => ?_, fun hb => ?_⟩
          · exact absurd (i2 h2) (by simp [hl])
          · exact absurd (i2 hb.2) (by simp [hl])
      | rel1 hp =>
          refine ⟨by simp, fun h2 => ?_, by simp⟩
          · exact absurd ⟨hp, h2⟩ i3
      | acq2 hl hp =>
          refine ⟨fun h1 => ?_, fun _ => rfl, fun hb => ?_⟩
          · exact absurd (i1 h1) (by simp [hl])
          · exact absurd (i1 hb.1) (by simp [hl])
      | rel2 hp =>
          refine ⟨fun h1 => ?_, by simp, by simp⟩
          · exact absurd ⟨h1, hp⟩ i3
      | acqR hl hp => exact ⟨i1, i2, i3⟩
      | relR hp => exact ⟨i1, i2, i3⟩

/-!
## Helper lemmas about the send loop
-/

theorem sendChunks_all_ok (log : String) :
    ∀ (cs : List (List Nat)) (oracle : Nat → SendOutcome),
      (∀ i, oracle i = .ok) →
      sendChunks true log oracle cs = ⟨1, cs, log⟩ := by
  intro cs
  induction cs with
  | nil => intro oracle _; rfl
  | cons c cs ih =>
      intro oracle h
      simp only [sendChunks, Bool.true_eq_false, if_false, h 0]
      rw [ih (fun n => oracle (n + 1)) (fun i => h (i + 1))]

theorem sendChunks_cancel (log : String) :
    ∀ (cs : List (List Nat)) (oracle : Nat → SendOutcome) (i : Nat),
      oracle i = .canceled → (∀ j, j < i → oracle j = .ok) →
      (sendChunks true log oracle cs).ret = 1 ∧
      (sendChunks true log oracle cs).log = log := by
  intro cs
  induction cs with
  | nil => intro oracle i _ _; exact ⟨rfl, rfl⟩
  | cons c cs ih =>
      intro oracle i hc hok
      simp only [sendChunks, Bool.true_eq_false, if_false]
      cases i with
      | zero => rw [hc]; exact ⟨rfl, rfl⟩
      | succ i =>
          rw [hok 0 (Nat.succ_pos i)]
          have := ih (fun n => oracle (n + 1)) i hc
            (fun j hj => hok (j + 1) (Nat.succ_lt_succ hj))
          exact this

/-!
## Claim theorems
-/

/-- Claim C10 (confirmed): `SendAudio` with zero samples returns success
(`1`), writes no message onto the stream, never consults the session state
(the result is the same for every session, including uninitialized and
closed ones), and leaves `logStatus` and the whole session unchanged. -/
theorem C10_empty_send_noop (s : Session) (oracle : Nat → SendOutcome) :
    sendAudio s [] oracle = ⟨1, [], s.logStatus⟩ ∧
    sendAudioSession s [] oracle = s := by
  constructor
  · simp [sendAudio, encodeLE, chunkBytes_nil, sendChunks]
  · simp [sendAudioSession, sendAudio, encodeLE, chunkBytes_nil, sendChunks]

/-- Claim C1 (code bug): on a session that is not Active, `ReceiveTranscript`
does fail with return value `0` and logs the state error, but `SendAudio`
(with a nonempty recording, so its per-chunk state check runs) returns the
success indicator `1` while logging the very same state error — contradicting
its own documented contract `1 if successful / 0 if failed`. -/
theorem C1_send_state_check_returns_true :
    sendAudio freshSession [0] (fun _ => .ok)
      = ⟨1, [], "Stream is not initialized"⟩ ∧
    receiveTranscript freshSession (.resp [])
      = some ⟨0, none, "Stream is not initialized"⟩ ∧
    isInit freshSession = 0 := by
  refine ⟨?_, rfl, rfl⟩
  show sendChunks false "" (fun _ => .ok) (chunkBytes (encodeLE [0])) = _
  rw [show encodeLE [0] = [0, 0] from rfl,
    chunkBytes_cons [0, 0] (by simp)]
  rfl

/-- Claim C4 (code bug): a response with no results, or whose results carry
no alternatives, leaves `helperString` empty, and the code then indexes
`helperString[0]` — an out-of-range panic (`none`) instead of the documented
success with an empty transcript. -/
theorem C4_empty_response_panics :
    receiveTranscript activeSession (.resp []) = none ∧
    receiveTranscript activeSession (.resp [[]]) = none ∧
    receiveTranscript activeSession (.resp [[], []]) = none := by
  refine ⟨rfl, rfl, rfl⟩

/-- Claim C7 (code bug): `CloseStream` before any `InitializeStream` calls
the nil `cancel` function and panics (`none`); once a cancel function exists
Close is idempotent, and after it `IsInitialized` is `0`. -/
theorem C7_close_before_first_init_panics :
    closeStream freshSession = none ∧
    closeStream activeSession = some ⟨false, false, true, ""⟩ ∧
    closeStream ⟨false, false, true, ""⟩ = some ⟨false, false, true, ""⟩ ∧
    isInit ⟨false, false, true, ""⟩ = 0 := by
  refine ⟨rfl, rfl, rfl, rfl⟩

/-- Claim C8 (confirmed): a successful `InitializeStream` sends exactly one
configuration message — linear-PCM-16 encoding, the given sample rate,
language tag, model, max-alternatives count and interim-results flag — as the
only (hence first) message on the new stream, sets the session Active, and
returns success. -/
theorem C8_config_message (s : Session) (lang : String) (rate : Int)
    (model : String) (maxAlt : Int) (interim : Int) :
    initStream s lang rate model maxAlt interim .ok
      = ⟨1, [⟨"LINEAR16", rate, lang, model, maxAlt, interim == 1⟩],
          ⟨true, true, true, s.logStatus⟩⟩ ∧
    isInit (initStream s lang rate model maxAlt interim .ok).session = 1 := by
  exact ⟨rfl, rfl⟩

/-- Claim C2 (confirmed): on an Active session with no send error, the bytes
transmitted for N samples total exactly 2N, split into `ceil(2N / 1024)`
chunks, each at most 1024 bytes and none empty, and concatenating the chunks
in emission order reproduces the little-endian byte encoding of the
samples. -/
theorem C2_chunking_correct (s : Session) (samples : List Int)
    (oracle : Nat → SendOutcome) (h1 : s.initDone = true)
    (h2 : ∀ i, oracle i = .ok) :
    ((sendAudio s samples oracle).sent.map List.length).sum
        = 2 * samples.length ∧
    (sendAudio s samples oracle).sent.length
        = (2 * samples.length + 1023) / 1024 ∧
    (∀ c ∈ (sendAudio s samples oracle).sent, c.length ≤ 1024 ∧ c ≠ []) ∧
    (sendAudio s samples oracle).sent.flatten = encodeLE samples ∧
    (sendAudio s samples oracle).ret = 1 := by
  have hrun : sendAudio s samples oracle
      = ⟨1, chunkBytes (encodeLE samples), s.logStatus⟩ := by
    unfold sendAudio
    rw [h1, sendChunks_all_ok s.logStatus _ oracle h2]
  rw [hrun]
  refine ⟨?_, ?_, chunkBytes_bounds _, chunkBytes_join _, rfl⟩
  · have := congrArg List.length (chunkBytes_join (encodeLE samples))
    simp only [List.length_flatten] at this
    rw [this, encodeLE_length]
  · rw [chunkBytes_count, encodeLE_length]

/-- Witness for claim C2 at the concrete recording `[100, -100, 0, 32000]`
on an Active session. -/
theorem C2_chunking_correct_witness :
    ((sendAudio activeSession [100, -100, 0, 32000] (fun _ => .ok)).sent.map
        List.length).sum = 2 * 4 ∧
    (sendAudio activeSession [100, -100, 0, 32000] (fun _ => .ok)).sent.length
        = (2 * 4 + 1023) / 1024 ∧
    (∀ c ∈ (sendAudio activeSession [100, -100, 0, 32000]
        (fun _ => .ok)).sent, c.length ≤ 1024 ∧ c ≠ []) ∧
    (sendAudio activeSession [100, -100, 0, 32000] (fun _ => .ok)).sent.flatten
        = encodeLE [100, -100, 0, 32000] ∧
    (sendAudio activeSession [100, -100, 0, 32000] (fun _ => .ok)).ret = 1 :=
  C2_chunking_correct activeSession [100, -100, 0, 32000] (fun _ => .ok) rfl
    (fun _ => rfl)

/-- Claim C5 counterexample: on cancellation `ReceiveTranscript` returns
success (`1`) but never assigns the `output` parameter — the claimed empty
transcript is NOT stored (`out` is `none`, not `some ""`). -/
theorem C5_cancel_counterexample :
    receiveTranscript activeSession .canceled = some ⟨1, none, ""⟩ ∧
    (⟨1, none, ""⟩ : RecvResult).out ≠ some [] := by
  exact ⟨rfl, by simp⟩

/-- Claim C5 as amended: when a stream operation fails because the execution
context was canceled, `SendAudio` returns success and records no error, and
`ReceiveTranscript` returns success, records no error, and leaves its output
parameter unwritten (it does not store an empty transcript). -/
theorem C5_cancel_is_success (s : Session) (samples : List Int)
    (oracle : Nat → SendOutcome) (i : Nat) (h : s.initDone = true)
    (hc : oracle i = .canceled) (hok : ∀ j, j < i → oracle j = .ok) :
    (sendAudio s samples oracle).ret = 1 ∧
    (sendAudio s samples oracle).log = s.logStatus ∧
    receiveTranscript s .canceled = some ⟨1, none, s.logStatus⟩ := by
  have hs := sendChunks_cancel s.logStatus (chunkBytes (encodeLE samples))
    oracle i hc hok
  unfold sendAudio
  rw [h]
  refine ⟨hs.1, hs.2, ?_⟩
  unfold receiveTranscript
  rw [h]
  rfl

/-- Witness for the amended claim C5: cancellation on the very first chunk of
a one-sample recording on an Active session. -/
theorem C5_cancel_is_success_witness :
    (sendAudio activeSession [5] (fun _ => .canceled)).ret = 1 ∧
    (sendAudio activeSession [5] (fun _ => .canceled)).log
        = activeSession.logStatus ∧
    receiveTranscript activeSession .canceled
        = some ⟨1, none, activeSession.logStatus⟩ :=
  C5_cancel_is_success activeSession [5] (fun _ => .canceled) 0 rfl rfl
    (fun j hj => absurd hj (Nat.not_lt_zero j))

/-- Claim C6 counterexample: a single `InitializeStream` call that fails at
the configuration-send step (after the stream was opened) reaches a session
whose stream handle is non-null while the state is not Active. -/
theorem C6_invariant_counterexample :
    Reachable (initStream freshSession "en-US" 16000 "default" 1 0
        (.configFail "config send failed")).session ∧
    (initStream freshSession "en-US" 16000 "default" 1 0
        (.configFail "config send failed")).session.streamSet = true ∧
    (initStream freshSession "en-US" 16000 "default" 1 0
        (.configFail "config send failed")).session.initDone = false := by
  exact ⟨Reachable.stepInit freshSession "en-US" 16000 "default" 1 0
    (.configFail "config send failed") Reachable.start, rfl, rfl⟩

/-- Claim C6 as amended: in every state reachable by sequences of calls in
which every failed `InitializeStream` fails during client construction
(before the stream global is assigned), the stream handle is non-null iff
the session state is Active. -/
theorem C6_invariant_amended (s : Session) (h : ReachableCF s) :
    s.streamSet = true ↔ s.initDone = true := by
  induction h with
  | start => simp [freshSession]
  | stepInit s lang rate model maxAlt interim o _hr ho ih =>
      rcases ho with ho | ⟨m, ho⟩
      · subst ho; simp [initStream]
      · subst ho; simpa [initStream] using ih
  | stepSend s samples oracle _hr ih => simpa [sendAudioSession] using ih
  | stepRecv s s' o _hr heq ih =>
      unfold receiveSession at heq
      cases hrt : receiveTranscript s o with
      | none => rw [hrt] at heq; exact absurd heq (by simp)
      | some r =>
          rw [hrt] at heq
          have : s' = { s with logStatus := r.log } := by
            simpa using heq.symm
          subst this
          simpa using ih
  | stepClose s s' _hr heq ih =>
      unfold closeStream at heq
      by_cases hc : s.cancelSet = false
      · rw [if_pos hc] at heq; exact absurd heq (by simp)
      · rw [if_neg hc] at heq
        have : s' = { s with initDone := false, streamSet := false } := by
          simpa using heq.symm
        subst this
        simp

/-- Witness for the amended claim C6 at the fresh session. -/
theorem C6_invariant_amended_witness :
    freshSession.streamSet = true ↔ freshSession.initDone = true :=
  C6_invariant_amended freshSession ReachableCF.start

/-- Claim C9 (confirmed, on the interleaving model of the lock discipline):
in every reachable interleaving, the chunk writes of two concurrent
`SendAudio` calls never overlap (the two sender threads are never `busy`
simultaneously, being mutually excluded by the send lock), while a sender
and the receiver, using different locks, can be `busy` simultaneously. -/
theorem C9_lock_exclusion :
    (∀ s, CReach s → ¬(s.send1 = .busy ∧ s.send2 = .busy)) ∧
    CReach ⟨true, true, .busy, .idle, .busy⟩ := by
  constructor
  · exact fun s h => (lockInv_reach s h).2.2
  · exact CReach.step _ _
      (CReach.step _ _ CReach.start (CStep.acq1 cInitState rfl rfl))
      (CStep.acqR ⟨true, false, .busy, .idle, .idle⟩ rfl rfl)

/-- Witness for claim C9: the mutual-exclusion half applied at the initial
interleaving state. -/
theorem C9_lock_exclusion_witness :
    ¬(cInitState.send1 = TPc.busy ∧ cInitState.send2 = TPc.busy) :=
  C9_lock_exclusion.1 cInitState CReach.start

/-!
## Helper lemmas for the normalization claim (C3)
-/

/-- `helperString` for a nonempty alternative list is the semicolon-join of
the trimmed alternatives followed by one extra (artifact) semicolon. -/
theorem flatten_semi_eq_joinSemi :
    ∀ (ts : List (List Char)), ts ≠ [] →
      (ts.map (fun t => t ++ [';'])).flatten = joinSemi ts ++ [';'] := by
  intro ts
  induction ts with
  | nil => intro h; exact absurd rfl h
  | cons t ts ih =>
      intro _
      cases ts with
      | nil => simp [joinSemi]
      | cons t' rest =>
          rw [List.map_cons, List.flatten_cons, ih (by simp)]
          show t ++ [';'] ++ (joinSemi (t' :: rest) ++ [';'])
              = (t ++ ';' :: joinSemi (t' :: rest)) ++ [';']
          simp

/-- The trailing `Fill output` block on `j ++ ";"` (with `j` nonempty)
returns `j` with at most one leading semicolon stripped — the trailing strip
only ever removes the artifact separator. -/
theorem finalize_concat (j : List Char) (h : j ≠ []) :
    finalize (j ++ [';']) = some (stripLeadSemi j) := by
  obtain ⟨d, j', rfl⟩ := List.exists_cons_of_ne_nil h
  have hlast : ((d :: j') ++ [';']).getLast? = some ';' :=
    List.getLast?_concat _
  have hdrop : ((d :: j') ++ [';']).dropLast = d :: j' :=
    List.dropLast_concat
  by_cases hd : d = ';'
  · subst hd
    simp only [finalize, stripLeadSemi, hlast]
    have h0 : ((';' :: j') ++ [';']).length = 0 ↔ False := by simp
    have h1 : ((';' :: j') ++ [';']).length ≤ 1 ↔ False := by simp
    simp only [h0, h1, if_false, List.head?, List.cons_append, if_true]
    simp [List.dropLast_concat]
  · simp only [finalize, stripLeadSemi, hlast, hdrop]
    have h0 : ((d :: j') ++ [';']).length = 0 ↔ False := by simp
    have hhead : ((d :: j') ++ [';']).head? = some d := by simp
    simp [h0, hhead, hd]

/-- Claim C3 counterexample: for the single alternative `"a;"` the code
returns `"a;"` while the claimed normalization (strip at most one trailing
semicolon from the semicolon-separated concatenation) yields `"a"`; and for
the single empty alternative the code panics (`none`) instead of returning
the claimed normalization `""`. -/
theorem C3_normalization_counterexample :
    receiveTranscript activeSession (.resp [[['a', ';']]])
        = some ⟨1, some ['a', ';'], ""⟩ ∧
    specNormalize [['a', ';']] = ['a'] ∧
    ((['a', ';'] : List Char) ≠ ['a']) ∧
    receiveTranscript activeSession (.resp [[[]]]) = none ∧
    specNormalize [[]] = [] := by
  refine ⟨rfl, rfl, by decide, rfl, rfl⟩

/-- Claim C3 as amended: for every received response with at least one
alternative whose semicolon-join of trimmed alternatives is nonempty, the
transcript equals that join (each alternative losing one leading character
when it starts with a space, joined in received order by single semicolons)
with at most one LEADING semicolon stripped; the trailing strip only removes
the separator the code itself appended, never a trailing semicolon of the
content, and a response whose only content is a single empty trimmed
alternative makes the code fault instead. -/
theorem C3_normalization_amended (s : Session)
    (results : List (List (List Char))) (h : s.initDone = true)
    (h1 : results.flatten ≠ [])
    (h2 : joinSemi ((results.flatten).map trimAlt) ≠ []) :
    receiveTranscript s (.resp results)
      = some ⟨1,
          some (stripLeadSemi (joinSemi ((results.flatten).map trimAlt))),
          s.logStatus⟩ := by
  have hh : helperOf results
      = joinSemi ((results.flatten).map trimAlt) ++ [';'] := by
    unfold helperOf
    rw [show (results.flatten).map (fun a => trimAlt a ++ [';'])
        = ((results.flatten).map trimAlt).map (fun t => t ++ [';']) by
      rw [List.map_map]; rfl]
    exact flatten_semi_eq_joinSemi _ (by simpa using h1)
  unfold receiveTranscript
  rw [h]
  simp only [Bool.true_eq_false, if_false]
  rw [hh, finalize_concat _ h2]

/-- Witness for the amended claim C3: alternatives `["h", " w"]` on an
Active session. -/
theorem C3_normalization_amended_witness :
    receiveTranscript activeSession (.resp [[['h'], [' ', 'w']]])
      = some ⟨1,
          some (stripLeadSemi (joinSemi
            (([[['h'], [' ', 'w']]] : List (List (List Char))).flatten.map
              trimAlt))),
          activeSession.logStatus⟩ :=
  C3_normalization_amended activeSession [[['h'], [' ', 'w']]] rfl
    (by decide) (by decide)

end GoSpeech
